import Mathlib

/-!
# Verification of the `use-cap` challenge-solving and token-lifecycle engine

Shallow embedding of the core of the `use-cap` repository
(`lib/api.ts`, `lib/token.ts`, `src/worker.ts`) in Lean 4, together with
theorems settling the frozen claims C1..C10 about it.

Conventions:
* JS 32-bit integer operations are modelled on `Nat` with explicit
  reduction `% 2^32` (`toUint32`); signed vs unsigned representations
  only differ in bit-pattern interpretation, and every operation used by
  the source (`^`, `<<`, `>>>`, `+` followed by a 32-bit truncation)
  only depends on the residue mod 2^32, so the `Nat` residues are a
  faithful model.
* Epoch-millisecond times and token expiries are modelled as `Int`.
* `fetch`, worker message channels and promise settlement are modelled
  as explicit data (`Except`, event lists, a promise-id map), with the
  single-threaded event loop made explicit as state passing.
-/

namespace UseCap

/-! ## Constants (`lib/constants.ts`) -/

def EXPIRES_BUFFER_IN_MS : Int := 1000 * 30

def ONE_DAY_IN_MS : Int := 24 * 60 * 60 * 1000

def MAX_WORKERS_COUNT : Nat := 16

def DEFAULT_WORKERS_COUNT : Nat := 8

def WORKER_TIMEOUT_IN_MS : Nat := 30000

/-! ## Data model (`lib/types.ts`) -/

/-- `Challenge = [string, string]`: a `(salt, targetPrefix)` pair. -/
abbrev Challenge : Type := String × String

/-- `CapToken = { token: string, expires: number }`. -/
structure CapToken where
  token : String
  expires : Int
deriving DecidableEq, Repr

/-- `RedeemResponse = { success, message?, token, expires }`. -/
structure RedeemResponse where
  success : Bool
  message : Option String
  token : String
  expires : Int
deriving DecidableEq, Repr

/-! ## Token cache (`lib/api.ts`: `isTokenExpired`, `getLocalStorageItem`) -/

/-- `isTokenExpired(token) { return token.expires <= Date.now() + EXPIRES_BUFFER_IN_MS }`,
with `Date.now()` passed explicitly. -/
def isTokenExpired (now : Int) (t : CapToken) : Bool :=
  t.expires ≤ now + EXPIRES_BUFFER_IN_MS

/-- What `localStorage.getItem` + `JSON.parse` + the `isCapToken` shape check
can yield before the expiry check: nothing stored, a malformed/ill-shaped
entry, or a well-shaped `CapToken`. -/
inductive StoredItem where
  | absent
  | malformed
  | valid (t : CapToken)
deriving DecidableEq

/-- `getLocalStorageItem`: parse and shape-check the stored item (summarised by
`StoredItem`), then return the token only when `!isTokenExpired(capToken)`;
every other path returns `null`. -/
def getLocalStorageItem (now : Int) : StoredItem → Option CapToken
  | .absent => none
  | .malformed => none
  | .valid t => if isTokenExpired now t then none else some t

/-! ## Worker-count selection (`lib/token.ts` `solve`) -/

/-- The `workersCount` destructuring default in `solve`:
`workersCount = Math.min(navigator.hardwareConcurrency || DEFAULT_WORKERS_COUNT, MAX_WORKERS_COUNT)`.
The default only applies when the caller did not pass a `workersCount`;
an explicit value is used as given. -/
def effectiveWorkersCount (requested : Option Nat) (hardwareConcurrency : Nat) : Nat :=
  match requested with
  | some n => n
  | none =>
      min (if hardwareConcurrency = 0 then DEFAULT_WORKERS_COUNT else hardwareConcurrency)
        MAX_WORKERS_COUNT

/-! ## Refresh scheduling (`lib/token.ts` `startRefresh`) -/

/-- Observable outcome of one `startRefresh` call: whether a pre-existing
timer for the key was cleared, the `setTimeout` delay armed (if any), and
whether `onError('Invalid expiration time')` was reported. -/
structure RefreshOutcome where
  cancelledExisting : Bool
  armedDelay : Option Int
  errorReported : Bool
deriving DecidableEq

/-- `startRefresh(context, expires)`: clear any existing timer for the key;
`expiresIn = new Date(expires).getTime() - Date.now()`; if
`expiresIn > 0 && expiresIn < ONE_DAY_IN_MS` arm a timer with delay
`expiresIn - EXPIRES_BUFFER_IN_MS`, else `onError('Invalid expiration time')`. -/
def startRefresh (hadTimer : Bool) (now expires : Int) : RefreshOutcome :=
  let expiresIn := expires - now
  if 0 < expiresIn ∧ expiresIn < ONE_DAY_IN_MS then
    { cancelledExisting := hadTimer
      armedDelay := some (expiresIn - EXPIRES_BUFFER_IN_MS)
      errorReported := false }
  else
    { cancelledExisting := hadTimer
      armedDelay := none
      errorReported := true }

/-! ## Deterministic challenge expander (`lib/api.ts`: `prng`, `getChallenge`) -/

/-- JS `>>> 0` / ToUint32: reduction mod 2^32. -/
def toUint32 (n : Nat) : Nat := n % 4294967296

/-- `str.charCodeAt(i)` for each position. UTF-16 code units agree with the
code points used here for all characters below `0x10000`, which covers every
seed the library builds (`token + i` and `token + i + "d"`). -/
def charCodes (s : String) : List Nat := s.data.map Char.toNat

/-- The inner `fnv1a` of `prng`:
`hash = 2166136261`; per character `hash ^= str.charCodeAt(i)` then
`hash += (hash<<1)+(hash<<4)+(hash<<7)+(hash<<8)+(hash<<24)`; return `hash >>> 0`.
Each `<<k` is multiplication by `2^k` mod 2^32; the signed-int32 values JS
manipulates are congruent mod 2^32 to these residues. -/
def fnv1a (s : String) : Nat :=
  (charCodes s).foldl
    (fun hash c =>
      let h := toUint32 (hash ^^^ c)
      toUint32 (h + (toUint32 (h * 2) + toUint32 (h * 16) + toUint32 (h * 128) +
        toUint32 (h * 256) + toUint32 (h * 16777216))))
    2166136261

/-- The `next()` step of `prng`:
`state ^= state << 13; state ^= state >>> 17; state ^= state << 5; return state >>> 0`. -/
def xorshiftNext (state : Nat) : Nat :=
  let s1 := toUint32 (state ^^^ toUint32 (state * 8192))
  let s2 := toUint32 (s1 ^^^ (s1 / 131072))
  toUint32 (s2 ^^^ toUint32 (s2 * 32))

/-- `rnd.toString(16).padStart(8, '0')`: 8 lowercase hex digits of a value
below 2^32. -/
def toHex8 (n : Nat) : String :=
  let s := (Nat.toDigits 16 n).asString
  ⟨List.replicate (8 - s.length) '0'⟩ ++ s

/-- The `while (result.length < length)` loop of `prng`, with explicit fuel.
Each iteration appends 8 characters, so `length` units of fuel are more than
the loop ever uses. -/
def prngGo (state : Nat) (acc : String) (length fuel : Nat) : String :=
  match fuel with
  | 0 => acc
  | fuel + 1 =>
      if acc.length < length then
        let rnd := xorshiftNext state
        prngGo rnd (acc ++ toHex8 rnd) length fuel
      else acc

/-- `prng(seed, length)`: seed the state with `fnv1a(seed)`, run the xorshift
loop, `result.substring(0, length)`. -/
def prng (seed : String) (length : Nat) : String :=
  (prngGo (fnv1a seed) "" length length).take length

/-- The compact challenge descriptor `{c, s, d}` of a challenge response. -/
structure ChallengeDescriptor where
  c : Nat
  s : Nat
  d : Nat

/-- The non-array branch of `getChallenge`:
`Array.from({length: challenge.c}, (_v, k) => { const i = k + 1;
return [prng(token+i, challenge.s), prng(token+i+"d", challenge.d)] })`. -/
def expandChallenges (desc : ChallengeDescriptor) (token : String) : List Challenge :=
  (List.range desc.c).map fun k =>
    let i := k + 1
    (prng (token ++ toString i) desc.s, prng (token ++ toString i ++ "d") desc.d)

/-! ## Redeem client (`lib/api.ts` `redeemSolutions`) -/

/-- `redeemSolutions`: after the `fetch` to `{endpoint}redeem` settles it calls
`onProgress?.(100)`, then `if (!response.ok) throw new Error('Failed to redeem token')`,
then `if (!resp.success) throw new Error(resp.message ?? 'Invalid solution')`,
else returns the response. Result: the progress values emitted, and either the
error message thrown or the redeemed token. -/
def redeemSolutions (ok : Bool) (resp : RedeemResponse) :
    List Nat × Except String CapToken :=
  ([100],
    if ¬ok then .error "Failed to redeem token"
    else if ¬resp.success then .error (resp.message.getD "Invalid solution")
    else .ok { token := resp.token, expires := resp.expires })

/-! ## Progress reporting (`lib/api.ts` `solveChallenges` / `redeemSolutions`) -/

/-- The value passed to `onProgress` by `solveSingleChallenge` on the
`completed`-th success out of `total`: `Math.round((completed / total) * 100)`,
i.e. round-half-up of the exact rational `100 * completed / total`
(`⌊(100c/t) + 1/2⌋ = ⌊(200c + t) / 2t⌋`). -/
def progressValue (completed total : Nat) : Nat :=
  (200 * completed + total) / (2 * total)

/-- The `onProgress` values emitted during the solve phase of a run in which
all `total` challenges succeed: the shared `completed` counter takes the
values `1, 2, ..., total` in order, and each increment reports
`progressValue completed total`. -/
def solveProgressEvents (total : Nat) : List Nat :=
  (List.range total).map fun k => progressValue (k + 1) total

/-- All `onProgress` values over a full successful run: the solve phase
followed by the explicit `onProgress?.(100)` of `redeemSolutions`. -/
def runProgressEvents (total : Nat) : List Nat :=
  solveProgressEvents total ++ (redeemSolutions true { success := true, message := none, token := "", expires := 0 }).1

/-! ## Unit solver (`src/worker.ts`) -/

/-- A message the worker posts back:
`{nonce, found: true, durationMs}` or `{found: false, error}`
(`durationMs` is diagnostic only and omitted here). -/
structure WorkerMsg where
  found : Bool
  nonce : Option Nat
  error : Option String
deriving DecidableEq, Repr

/-- The worker's `self.onmessage` solve path: when `solvePowFunction` returns a
nonce it posts `{nonce, found: true, ...}`; when the solve path throws it is
caught and `{found: false, error: message}` is posted. -/
def workerOnMessage (solveResult : Except String Nat) : WorkerMsg :=
  match solveResult with
  | .ok nonce => { found := true, nonce := some nonce, error := none }
  | .error e => { found := false, nonce := none, error := some e }

/-- The worker's `self.onerror` handler: a fault delivered on the worker's own
error channel is posted back as `{found: false, error}`. -/
def workerOnError (description : String) : WorkerMsg :=
  { found := false, nonce := none, error := some description }

/-! ## Per-unit dispatch (`lib/api.ts` `solveSingleChallenge`) -/

/-- The JS error value the dispatcher's `worker.onerror` receives: an object
(possibly with a `message`) or any other value stringified. -/
inductive JsErr where
  | obj (message : Option String)
  | str (s : String)
deriving DecidableEq

/-- `typeof err === 'object' ? (err?.message ?? 'unknown') : String(err)`. -/
def errDescription : JsErr → String
  | .obj (some m) => m
  | .obj none => "unknown"
  | .str s => s

/-- Settlement state of one `solveSingleChallenge` promise. -/
inductive UnitState where
  | pending
  | resolved (nonce : Nat)
  | rejected (msg : String)
deriving DecidableEq, Repr

/-- One dispatched unit: its promise state and whether its 30 s timeout is
still armed. -/
structure SolveUnit where
  state : UnitState
  timerArmed : Bool
deriving DecidableEq, Repr

/-- An event that can reach one dispatched unit: a worker message, the
dispatcher-side `worker.onerror` event, or the unit's timeout firing. -/
inductive UnitEvent where
  | message (m : WorkerMsg)
  | errorEvent (err : JsErr)
  | timeoutFire
deriving DecidableEq

/-- The event handling of `solveSingleChallenge` for one unit:
* `worker.onmessage`: `if (!data.found) return;` else clear the timeout and
  resolve with the nonce (`data.nonce`, absent fields read as `undefined`,
  modelled by `0` — unreachable for `found: true` messages the worker posts);
* `worker.onerror`: clear the timeout and reject with
  `new Error("Error in worker: <description>")`;
* the timeout: terminate/replace the worker and reject with
  `new Error('Worker timeout')`.
A settled promise absorbs further settlement attempts. -/
def stepUnit (u : SolveUnit) (e : UnitEvent) : SolveUnit :=
  match u.state with
  | .pending =>
      match e with
      | .message m =>
          if ¬m.found then u
          else { state := .resolved (m.nonce.getD 0), timerArmed := false }
      | .errorEvent err =>
          { state := .rejected ("Error in worker: " ++ errDescription err), timerArmed := false }
      | .timeoutFire =>
          if u.timerArmed then { state := .rejected "Worker timeout", timerArmed := false }
          else u
  | _ => u

/-! ## Worker-pool dispatcher (`lib/api.ts` `solveChallenges`)

`Promise.all` settles with the values of its promises *in array order*,
whatever order the promises complete in.  We model the completions of one
chunk as a list of `(index, nonce)` pairs delivered in an arbitrary order
(any permutation of the dispatch order), and `Promise.all` as reassembly by
index. -/

/-- Collect a list of options, failing if any entry is `none`
(the n-ary `Promise.all` aggregation). -/
def seqOption {α : Type} : List (Option α) → Option (List α)
  | [] => some []
  | none :: _ => none
  | some a :: rest => (seqOption rest).map (a :: ·)

/-- `Promise.all` over `n` indexed promises whose completions arrive as
`completions` (in completion order): the result's `i`-th entry is the value
completed for index `i`. -/
def promiseAll (n : Nat) (completions : List (Nat × Nat)) : Option (List Nat) :=
  seqOption ((List.range n).map fun i =>
    (completions.find? fun p => p.fst == i).map Prod.snd)

/-- The completions produced by dispatching one chunk
(`chunk.map((c, idx) => solveSingleChallenge(c, idx))`), in dispatch order:
unit `idx` resolves with the nonce found for `chunk[idx]`. -/
def dispatchChunk (nonceOf : Challenge → Nat) (chunk : List Challenge) : List (Nat × Nat) :=
  chunk.enum.map fun p => (p.fst, nonceOf p.snd)

/-- The wave loop of `solveChallenges`
(`for (let i = 0; i < challenges.length; i += workersCount)`), processing
consecutive `take`/`drop` chunks of size `workersCount`.  `completionOrder`
reorders each chunk's completions (the order workers happen to finish in);
`fuel` bounds the number of loop iterations — the source loop runs
`⌈length / workersCount⌉ ≤ length` times whenever `workersCount ≥ 1`. -/
def solveChallengesGo (workersCount : Nat) (nonceOf : Challenge → Nat)
    (completionOrder : List (Nat × Nat) → List (Nat × Nat)) :
    Nat → List Challenge → Option (List Nat)
  | _, [] => some []
  | 0, _ :: _ => none
  | fuel + 1, c :: cs => do
      let chunk := (c :: cs).take workersCount
      let chunkResults ← promiseAll chunk.length (completionOrder (dispatchChunk nonceOf chunk))
      let rest ← solveChallengesGo workersCount nonceOf completionOrder fuel ((c :: cs).drop workersCount)
      pure (chunkResults ++ rest)

/-- `solveChallenges(context, challenges)` under the assumption that every
dispatched unit resolves with a nonce (`nonceOf`), with worker completion
order abstracted by `completionOrder`. -/
def solveChallenges (workersCount : Nat) (nonceOf : Challenge → Nat)
    (completionOrder : List (Nat × Nat) → List (Nat × Nat))
    (challenges : List Challenge) : Option (List Nat) :=
  solveChallengesGo workersCount nonceOf completionOrder challenges.length challenges

/-! ## Single-flight coordinator (`lib/token.ts` `solveOneAtATime`)

The module state is `const solving = new Map<string, Promise<CapToken|undefined>>()`.
Promises are modelled by identifiers allocated from a counter; the map is an
association list with unique keys (`Map` semantics).  Starting an attempt
(the `solve(context)` call chained in `solveOneAtATime`) performs exactly one
challenge fetch and, on the success path, one redeem call; the counters
record how many of each have been issued. -/

/-- The coordinator's shared state. -/
structure CoordState where
  solving : List (String × Nat)
  nextId : Nat
  challengeFetches : Nat
  redeemCalls : Nat
deriving DecidableEq, Repr

/-- `solving.get(tokenKey)`. -/
def lookupSolving (st : CoordState) (tokenKey : String) : Option Nat :=
  (st.solving.find? fun p => p.fst == tokenKey).map Prod.snd

/-- `solving.delete(tokenKey)` (the `.finally` cleanup). A `Map` holds each
key once, so deletion removes every entry for the key. -/
def deleteSolving (st : CoordState) (tokenKey : String) : CoordState :=
  { st with solving := st.solving.filter fun p => ¬(p.fst == tokenKey) }

/-- The synchronous part of `solveOneAtATime(context)`: if
`solving.get(tokenKey)` is a pending promise, return it unchanged; otherwise
start a new attempt — allocate its promise, `solving.set(tokenKey, promise)`,
and issue the attempt's single challenge fetch and single redeem call. -/
def solveOneAtATime (st : CoordState) (tokenKey : String) : CoordState × Nat :=
  match lookupSolving st tokenKey with
  | some promise => (st, promise)
  | none =>
      ({ solving := (tokenKey, st.nextId) :: st.solving
         nextId := st.nextId + 1
         challengeFetches := st.challengeFetches + 1
         redeemCalls := st.redeemCalls + 1 }, st.nextId)

/-- `n` concurrent calls of `solveOneAtATime` for the same key — on the
single-threaded event loop, calls that arrive while the attempt is in flight
run in sequence against the shared map before the attempt settles. Returns
the final state and the promise each caller received. -/
def callRepeatedly (st : CoordState) (tokenKey : String) : Nat → CoordState × List Nat
  | 0 => (st, [])
  | n + 1 =>
      let (st', p) := solveOneAtATime st tokenKey
      let (st'', ps) := callRepeatedly st' tokenKey n
      (st'', p :: ps)

/-- The callbacks observed while one attempt settles. -/
structure SettleResult where
  stored : Bool
  solved : List CapToken
  errors : List String
  refreshStarted : Bool
  returned : Option CapToken
deriving DecidableEq, Repr

/-- The settlement chain of `solveOneAtATime`'s attempt:
`.then` — store when `localStorageEnabled`, invoke `onSolve`, start the
refresh when `refreshAutomatically`, and resolve with the token;
`.catch` — invoke `onError` with the error's message and resolve with
`undefined`; `.finally` — `solving.delete(tokenKey)` in every case. -/
def settleSolve (st : CoordState) (tokenKey : String)
    (localStorageEnabled refreshAutomatically : Bool)
    (outcome : Except String CapToken) : CoordState × SettleResult :=
  match outcome with
  | .ok token =>
      (deleteSolving st tokenKey,
        { stored := localStorageEnabled
          solved := [token]
          errors := []
          refreshStarted := refreshAutomatically
          returned := some token })
  | .error e =>
      (deleteSolving st tokenKey,
        { stored := false
          solved := []
          errors := [e]
          refreshStarted := false
          returned := none })

/-! ## Theorems -/

/-- C8: the expiry predicate judges a token expired iff
`token.expires <= now + 30000`; a cached token with
`expires = now + EXPIRY_BUFFER - 1` is discarded as a cache miss, one with
`expires = now + EXPIRY_BUFFER + 1` is returned as valid. -/
theorem c8_expiry_predicate (now : Int) (s : String) (e : Int) :
    (isTokenExpired now ⟨s, e⟩ = true ↔ e ≤ now + 30000) ∧
    getLocalStorageItem now (.valid ⟨s, now + EXPIRES_BUFFER_IN_MS - 1⟩) = none ∧
    getLocalStorageItem now (.valid ⟨s, now + EXPIRES_BUFFER_IN_MS + 1⟩) =
      some ⟨s, now + EXPIRES_BUFFER_IN_MS + 1⟩ := by
  refine ⟨?_, ?_, ?_⟩
  · simp [isTokenExpired, EXPIRES_BUFFER_IN_MS]
  · simp [getLocalStorageItem, isTokenExpired]
  · simp [getLocalStorageItem, isTokenExpired]

/-- C6 counterexample: a requested `workersCount` of 20 yields an effective
pool size of 20, not the claimed clamp to the configured maximum 16 — the
clamp is only part of the destructuring default. -/
theorem c6_counterexample :
    effectiveWorkersCount (some 20) 4 = 20 ∧ (20 : Nat) ≠ MAX_WORKERS_COUNT := by
  decide

/-- C6 amended: only the *default* worker count (used when the caller passes
none) is clamped into `[1, MAX_WORKERS_COUNT]`; an explicitly requested
`workersCount` is used as given, so a request of 20 yields a pool of 20. -/
theorem c6_amended (hc : Nat) (n : Nat) :
    1 ≤ effectiveWorkersCount none hc ∧
    effectiveWorkersCount none hc ≤ MAX_WORKERS_COUNT ∧
    effectiveWorkersCount (some n) hc = n := by
  refine ⟨?_, ?_, rfl⟩ <;>
    simp only [effectiveWorkersCount, MAX_WORKERS_COUNT, DEFAULT_WORKERS_COUNT] <;>
    split <;> omega

/-- C7 counterexample: at `now = 0`, `expires = 10000` the claimed delay
`expires - now - EXPIRY_BUFFER = -20000` is not in `(0, ONE_DAY_MS)`, so the
claim demands an error and no timer — but the code arms a timer (with that
negative delay), because its window test is on `expires - now`, not on the
buffered delay. -/
theorem c7_counterexample :
    (startRefresh false 0 10000).armedDelay = some (-20000) ∧
    ¬(0 < (10000 : Int) - 0 - EXPIRES_BUFFER_IN_MS) ∧
    (startRefresh false 0 10000).errorReported = false := by
  refine ⟨?_, by decide, ?_⟩ <;> decide

/-- C7 amended: `startRefresh` first cancels any existing timer for the
identity, computes `expiresIn = expiresAt - now`, and arms a timer with delay
`expiresIn - EXPIRY_BUFFER` if and only if `0 < expiresIn < ONE_DAY_MS`
(the armed delay may therefore be ≤ 0); in every other case it reports
"Invalid expiration time" and arms no timer. -/
theorem c7_amended (hadTimer : Bool) (now expires : Int) :
    (startRefresh hadTimer now expires).cancelledExisting = hadTimer ∧
    ((startRefresh hadTimer now expires).armedDelay.isSome ↔
      (now < expires ∧ expires - now < ONE_DAY_IN_MS)) ∧
    ((startRefresh hadTimer now expires).errorReported = true ↔
      (startRefresh hadTimer now expires).armedDelay = none) ∧
    (∀ d, (startRefresh hadTimer now expires).armedDelay = some d →
      d = expires - now - EXPIRES_BUFFER_IN_MS) := by
  simp only [startRefresh]
  split
  · rename_i h
    refine ⟨rfl, ?_, by simp, ?_⟩
    · simp
      omega
    · intro d hd
      simpa using hd.symm
  · rename_i h
    refine ⟨rfl, ?_, by simp, ?_⟩
    · simp
      omega
    · intro d hd
      simp at hd

/-- C7 amended witness: at `now = 0`, `expires = 60000` the theorem applies
and the armed delay evaluates to `30000 = 60000 - 0 - EXPIRY_BUFFER`. -/
theorem c7_amended_witness :
    (30000 : Int) = 60000 - 0 - EXPIRES_BUFFER_IN_MS :=
  (c7_amended false 0 60000).2.2.2 30000 (by decide)

theorem runProgressEvents_eq (total : Nat) :
    runProgressEvents total = solveProgressEvents total ++ [100] := rfl

theorem progressValue_mono {k₁ k₂ : Nat} (n : Nat) (h : k₁ ≤ k₂) :
    progressValue k₁ n ≤ progressValue k₂ n :=
  Nat.div_le_div_right (by omega)

theorem progressValue_le_100 {k n : Nat} (hn : 1 ≤ n) (hk : k ≤ n) :
    progressValue k n ≤ 100 := by
  unfold progressValue
  have h2n : 0 < 2 * n := by omega
  have hlt : 200 * k + n < 101 * (2 * n) := by omega
  have := (Nat.div_lt_iff_lt_mul h2n).2 hlt
  omega

theorem progressValue_eq_100_iff {k n : Nat} (hn : 1 ≤ n) (hk : k ≤ n) :
    progressValue k n = 100 ↔ 199 * n ≤ 200 * k := by
  have h2n : 0 < 2 * n := by omega
  constructor
  · intro h
    have h1 : 100 ≤ (200 * k + n) / (2 * n) := le_of_eq h.symm
    have := (Nat.le_div_iff_mul_le h2n).1 h1
    omega
  · intro h
    have h1 : 100 ≤ progressValue k n := (Nat.le_div_iff_mul_le h2n).2 (by omega)
    have h2 := progressValue_le_100 hn hk
    omega

theorem runProgressEvents_chain (total : Nat) :
    List.Chain' (· ≤ ·) (runProgressEvents total) := by
  rw [runProgressEvents_eq]
  rw [List.chain'_append]
  refine ⟨?_, by simp, ?_⟩
  · unfold solveProgressEvents
    rw [List.chain'_map]
    cases total with
    | zero => simp
    | succ t =>
      rw [List.chain'_range_succ]
      intro m _
      exact progressValue_mono _ (by omega)
  · intro x hx y hy
    cases total with
    | zero => simp [solveProgressEvents] at hx
    | succ t =>
      unfold solveProgressEvents at hx
      rw [List.range_succ, List.map_append] at hx
      simp only [List.map_cons, List.map_nil, List.getLast?_concat, Option.mem_def,
        Option.some.injEq] at hx
      simp only [List.head?_cons, Option.mem_def, Option.some.injEq] at hy
      subst hy
      rw [← hx]
      exact progressValue_le_100 (by omega) (by omega)

/-- C5 counterexample: with 200 challenges the solve phase reports progress
100 at the 199-th completion (`Math.round(199/200*100) = 100`) even though
the completed count does not equal the total, contradicting "100 is reported
during the solve phase only when completed equals total". -/
theorem c5_counterexample :
    progressValue 199 200 = 100 ∧ (199 : Nat) ≠ 200 ∧
    (solveProgressEvents 200)[198]? = some 100 := by
  refine ⟨by decide, by decide, ?_⟩
  simp only [solveProgressEvents, List.getElem?_map, List.getElem?_range (by decide : 198 < 200),
    Option.map_some']
  decide

/-- C5 amended: over a full run of `solveChallenges` followed by
`redeemSolutions` the reported progress sequence is monotonically
non-decreasing and ends at the explicit 100 reported after the redeem request
is issued; during the solve phase the value 100 is reported at completed
count `k` iff `round(100k/total) = 100`, i.e. iff `199*total ≤ 200*k` —
which holds when `k = total` but can also hold with `k < total` (rounding). -/
theorem c5_amended (total k : Nat) (hk1 : 1 ≤ k) (hk2 : k ≤ total) :
    List.Chain' (· ≤ ·) (runProgressEvents total) ∧
    (runProgressEvents total).getLast? = some 100 ∧
    (progressValue k total = 100 ↔ 199 * total ≤ 200 * k) ∧
    progressValue total total = 100 := by
  refine ⟨runProgressEvents_chain total, ?_, ?_, ?_⟩
  · rw [runProgressEvents_eq]
    exact List.getLast?_concat _
  · exact progressValue_eq_100_iff (by omega) hk2
  · exact (progressValue_eq_100_iff (by omega) (le_refl total)).2 (by omega)

/-- C5 amended witness: instantiated for a run over 4 challenges at
completed count 4. -/
theorem c5_amended_witness :
    List.Chain' (· ≤ ·) (runProgressEvents 4) ∧
    (runProgressEvents 4).getLast? = some 100 ∧
    (progressValue 4 4 = 100 ↔ 199 * 4 ≤ 200 * 4) ∧
    progressValue 4 4 = 100 :=
  c5_amended 4 4 (by decide) (by decide)

/-- C4: the challenge expansion is deterministic and produces exactly `c`
challenges; the `i`-th (1-indexed) challenge is the pair
`(prng(token + i, s), prng(token + i + "d", d))`, where `prng` is the
FNV-1a-seeded xorshift32 hex generator embedded above. -/
theorem c4_deterministic_expansion (desc : ChallengeDescriptor) (token : String)
    (i : Nat) (h1 : 1 ≤ i) (h2 : i ≤ desc.c) :
    (expandChallenges desc token).length = desc.c ∧
    (expandChallenges desc token)[i - 1]? =
      some (prng (token ++ toString i) desc.s, prng (token ++ toString i ++ "d") desc.d) ∧
    expandChallenges desc token = expandChallenges desc token := by
  refine ⟨by simp [expandChallenges], ?_, rfl⟩
  unfold expandChallenges
  rw [List.getElem?_map, List.getElem?_range (by omega)]
  simp only [Option.map_some']
  have hi : i - 1 + 1 = i := by omega
  rw [hi]

/-- C4 witness: the descriptor `{c: 2, s: 10, d: 8}` with seed token
`"test-token"` at `i = 1`. -/
theorem c4_witness :
    (expandChallenges ⟨2, 10, 8⟩ "test-token").length = 2 ∧
    (expandChallenges ⟨2, 10, 8⟩ "test-token")[1 - 1]? =
      some (prng ("test-token" ++ toString 1) 10, prng ("test-token" ++ toString 1 ++ "d") 8) ∧
    expandChallenges ⟨2, 10, 8⟩ "test-token" = expandChallenges ⟨2, 10, 8⟩ "test-token" :=
  c4_deterministic_expansion ⟨2, 10, 8⟩ "test-token" 1 (by decide) (by decide)

/-- Sanity anchor for the generator embedding: the exact hex expansion of the
spec's reference scenario (`prng("test-token1", 10)` and
`prng("test-token1d", 8)`), matching the JS implementation byte for byte. -/
theorem prng_reference_values :
    prng "test-token1" 10 = "7cceb122f7" ∧ prng "test-token1d" 8 = "8a394318" := by
  constructor <;> rfl

theorem find?_key_eq_of_mem {l : List (Nat × Nat)} (hnd : (l.map Prod.fst).Nodup)
    {p : Nat × Nat} (hp : p ∈ l) : (l.find? fun q => q.fst == p.fst) = some p := by
  induction l with
  | nil => cases hp
  | cons a t ih =>
    simp only [List.map_cons, List.nodup_cons] at hnd
    rcases List.mem_cons.1 hp with rfl | hpt
    · rw [List.find?_cons_of_pos _ (by simp)]
    · have hne : (a.fst == p.fst) = false := by
        rw [beq_eq_false_iff_ne]
        intro hcontra
        exact hnd.1 (hcontra ▸ List.mem_map_of_mem Prod.fst hpt)
      rw [List.find?_cons_of_neg _ (by simp [hne])]
      exact ih hnd.2 hpt

theorem find?_key_congr_perm {l l' : List (Nat × Nat)} (h : l.Perm l')
    (hnd : (l.map Prod.fst).Nodup) (i : Nat) :
    (l'.find? fun q => q.fst == i) = l.find? fun q => q.fst == i := by
  by_cases hex : ∃ p ∈ l, p.fst = i
  · obtain ⟨p, hp, rfl⟩ := hex
    have hnd' : (l'.map Prod.fst).Nodup := ((h.map Prod.fst).nodup_iff).1 hnd
    rw [find?_key_eq_of_mem hnd' (h.mem_iff.1 hp), find?_key_eq_of_mem hnd hp]
  · push_neg at hex
    rw [List.find?_eq_none.2, List.find?_eq_none.2]
    · intro x hx
      simp [hex x hx]
    · intro x hx
      simp [hex x (h.mem_iff.2 hx)]

theorem promiseAll_congr_perm (n : Nat) {c c' : List (Nat × Nat)} (h : c.Perm c')
    (hnd : (c.map Prod.fst).Nodup) : promiseAll n c' = promiseAll n c := by
  unfold promiseAll
  congr 1
  exact List.map_congr_left fun i _ => by rw [find?_key_congr_perm h hnd i]

theorem dispatchChunk_keys (f : Challenge → Nat) (chunk : List Challenge) :
    (dispatchChunk f chunk).map Prod.fst = List.range chunk.length := by
  unfold dispatchChunk
  rw [List.map_map]
  exact List.enum_map_fst chunk

theorem promiseAll_enumFrom (f : Challenge → Nat) :
    ∀ (l : List Challenge) (k : Nat),
      seqOption ((List.range l.length).map fun i =>
        (((l.enumFrom k).map fun p => (p.fst, f p.snd)).find? fun q => q.fst == k + i).map
          Prod.snd) = some (l.map f) := by
  intro l
  induction l with
  | nil => intro k; rfl
  | cons a t ih =>
    intro k
    rw [List.length_cons, List.range_succ_eq_map, List.map_cons, List.map_map]
    have hhead :
        (((List.enumFrom k (a :: t)).map fun p => (p.fst, f p.snd)).find? fun q =>
          q.fst == k + 0).map Prod.snd = some (f a) := by
      simp only [List.enumFrom, List.map_cons]
      rw [List.find?_cons_of_pos _ (by simp)]
      rfl
    have htail : ∀ i ∈ List.range t.length,
        ((((List.enumFrom k (a :: t)).map fun p => (p.fst, f p.snd)).find? fun q =>
            q.fst == k + Nat.succ i).map Prod.snd) =
        ((((List.enumFrom (k + 1) t).map fun p => (p.fst, f p.snd)).find? fun q =>
            q.fst == (k + 1) + i).map Prod.snd) := by
      intro i _
      simp only [List.enumFrom, List.map_cons]
      rw [List.find?_cons_of_neg _ (by simp)]
      have harith : k + Nat.succ i = (k + 1) + i := by omega
      rw [harith]
    simp only [Function.comp_def]
    rw [hhead, List.map_congr_left htail]
    simp only [seqOption]
    rw [ih (k + 1)]
    rfl

theorem promiseAll_dispatchChunk (f : Challenge → Nat) (chunk : List Challenge) :
    promiseAll chunk.length (dispatchChunk f chunk) = some (chunk.map f) := by
  have key := promiseAll_enumFrom f chunk 0
  simp only [Nat.zero_add] at key
  exact key

theorem solveChallengesGo_eq (w : Nat) (hw : 1 ≤ w) (f : Challenge → Nat)
    (compOrder : List (Nat × Nat) → List (Nat × Nat)) (hσ : ∀ l, (compOrder l).Perm l) :
    ∀ (fuel : Nat) (cs : List Challenge), cs.length ≤ fuel →
      solveChallengesGo w f compOrder fuel cs = some (cs.map f) := by
  intro fuel
  induction fuel with
  | zero =>
    intro cs hcs
    cases cs with
    | nil => rfl
    | cons a t => simp at hcs
  | succ n ih =>
    intro cs hcs
    cases cs with
    | nil => rfl
    | cons a t =>
      have hperm : (dispatchChunk f ((a :: t).take w)).Perm
          (compOrder (dispatchChunk f ((a :: t).take w))) :=
        (hσ (dispatchChunk f ((a :: t).take w))).symm
      have hnd : ((dispatchChunk f ((a :: t).take w)).map Prod.fst).Nodup := by
        rw [dispatchChunk_keys]
        exact List.nodup_range _
      have hdrop : ((a :: t).drop w).length ≤ n := by
        rw [List.length_drop]
        simp only [List.length_cons] at hcs ⊢
        omega
      simp only [solveChallengesGo]
      rw [promiseAll_congr_perm _ hperm hnd, promiseAll_dispatchChunk, ih _ hdrop]
      show some (List.map f ((a :: t).take w) ++ List.map f ((a :: t).drop w)) =
        some (List.map f (a :: t))
      rw [← List.map_append, List.take_append_drop]

/-- C2: for every challenge list and `workersCount ≥ 1`, assuming each
dispatched unit resolves with a nonce (`nonceOf`), `solveChallenges` returns
the nonce list in input order — same length, `i`-th output is the nonce of
the `i`-th input challenge — for *every* completion order of the workers
(any permutation of each chunk's completions). -/
theorem c2_order_preservation (workersCount : Nat) (nonceOf : Challenge → Nat)
    (completionOrder : List (Nat × Nat) → List (Nat × Nat)) (challenges : List Challenge)
    (hw : 1 ≤ workersCount) (hσ : ∀ l, (completionOrder l).Perm l) :
    solveChallenges workersCount nonceOf completionOrder challenges =
      some (challenges.map nonceOf) ∧
    (challenges.map nonceOf).length = challenges.length ∧
    ∀ i (hi : i < challenges.length),
      (challenges.map nonceOf)[i]? = some (nonceOf (challenges.get ⟨i, hi⟩)) := by
  refine ⟨?_, List.length_map _ _, ?_⟩
  · exact solveChallengesGo_eq workersCount hw nonceOf completionOrder hσ _ _ (le_refl _)
  · intro i hi
    rw [List.getElem?_map, List.getElem?_eq_getElem hi]
    rfl

/-- C2 witness: three challenges, two workers, workers completing in reverse
index order within each wave (`List.reverse` is a permutation). -/
theorem c2_witness :
    solveChallenges 2 (fun c => c.fst.length) List.reverse
        [("a", "x"), ("bb", "y"), ("ccc", "z")] =
      some ([("a", "x"), ("bb", "y"), ("ccc", "z")].map fun c : Challenge => c.fst.length) :=
  (c2_order_preservation 2 (fun c => c.fst.length) List.reverse
    [("a", "x"), ("bb", "y"), ("ccc", "z")] (by decide) (fun l => List.reverse_perm l)).1

theorem solveOneAtATime_inflight (st : CoordState) (k : String) (p : Nat)
    (h : lookupSolving st k = some p) : solveOneAtATime st k = (st, p) := by
  unfold solveOneAtATime
  rw [h]

theorem callRepeatedly_inflight (st : CoordState) (k : String) (p : Nat)
    (h : lookupSolving st k = some p) :
    ∀ m, callRepeatedly st k m = (st, List.replicate m p) := by
  intro m
  induction m with
  | zero => rfl
  | succ n ih => simp [callRepeatedly, solveOneAtATime_inflight st k p h, ih, List.replicate]

/-- C1: single-flight deduplication. A call that finds an attempt in flight
for the key returns the same pending promise and changes nothing; starting
from a state with no attempt in flight, any number `n ≥ 1` of concurrent
calls for one key all receive the same promise, and exactly one challenge
fetch and one redeem call are issued in total. -/
theorem c1_single_flight (st : CoordState) (tokenKey : String) (n : Nat)
    (hfree : lookupSolving st tokenKey = none) (hn : 1 ≤ n) :
    (∀ st' p, lookupSolving st' tokenKey = some p →
      solveOneAtATime st' tokenKey = (st', p)) ∧
    (callRepeatedly st tokenKey n).2 = List.replicate n st.nextId ∧
    (callRepeatedly st tokenKey n).1.challengeFetches = st.challengeFetches + 1 ∧
    (callRepeatedly st tokenKey n).1.redeemCalls = st.redeemCalls + 1 := by
  obtain ⟨m, rfl⟩ : ∃ m, n = m + 1 := ⟨n - 1, by omega⟩
  have hfirst : solveOneAtATime st tokenKey =
      ({ solving := (tokenKey, st.nextId) :: st.solving
         nextId := st.nextId + 1
         challengeFetches := st.challengeFetches + 1
         redeemCalls := st.redeemCalls + 1 }, st.nextId) := by
    unfold solveOneAtATime
    rw [hfree]
  have hlook1 : lookupSolving
      { solving := (tokenKey, st.nextId) :: st.solving
        nextId := st.nextId + 1
        challengeFetches := st.challengeFetches + 1
        redeemCalls := st.redeemCalls + 1 : CoordState } tokenKey = some st.nextId := by
    simp [lookupSolving, List.find?]
  have hrep := callRepeatedly_inflight _ tokenKey st.nextId hlook1 m
  refine ⟨fun st' p h => solveOneAtATime_inflight st' tokenKey p h, ?_, ?_, ?_⟩ <;>
    simp [callRepeatedly, hfirst, hrep, List.replicate]

/-- C1 witness: three concurrent calls from a fresh coordinator state. -/
theorem c1_witness :
    (callRepeatedly ⟨[], 0, 0, 0⟩ "cap-token" 3).2 = List.replicate 3 0 ∧
    (callRepeatedly ⟨[], 0, 0, 0⟩ "cap-token" 3).1.challengeFetches = 0 + 1 ∧
    (callRepeatedly ⟨[], 0, 0, 0⟩ "cap-token" 3).1.redeemCalls = 0 + 1 :=
  ⟨(c1_single_flight ⟨[], 0, 0, 0⟩ "cap-token" 3 (by decide) (by decide)).2.1,
    (c1_single_flight ⟨[], 0, 0, 0⟩ "cap-token" 3 (by decide) (by decide)).2.2.1,
    (c1_single_flight ⟨[], 0, 0, 0⟩ "cap-token" 3 (by decide) (by decide)).2.2.2⟩

theorem lookupSolving_delete (st : CoordState) (k : String) :
    lookupSolving (deleteSolving st k) k = none := by
  have hfind : (deleteSolving st k).solving.find? (fun p => p.fst == k) = none := by
    rw [List.find?_eq_none]
    intro x hx
    have hmem := (List.mem_filter.1 hx).2
    simp only [decide_eq_true_eq] at hmem
    simpa using hmem
  simp [lookupSolving, hfind]

/-- C3: the coordinator never rejects. For every pipeline failure the error
callback is invoked exactly once with the failure's string description, the
overall outcome resolves to an absent result, the in-flight entry is removed
so a later call starts a fresh attempt; and a redeem response
`{success: false, message: "Invalid solution"}` fails with exactly
"Invalid solution", which reaches the error callback verbatim. -/
theorem c3_coordinator_never_rejects (st : CoordState) (tokenKey : String)
    (ls ra : Bool) (msg : String) :
    (settleSolve st tokenKey ls ra (.error msg)).2.errors = [msg] ∧
    (settleSolve st tokenKey ls ra (.error msg)).2.returned = none ∧
    (settleSolve st tokenKey ls ra (.error msg)).2.solved = [] ∧
    lookupSolving (settleSolve st tokenKey ls ra (.error msg)).1 tokenKey = none ∧
    (solveOneAtATime (settleSolve st tokenKey ls ra (.error msg)).1 tokenKey).2 =
      (settleSolve st tokenKey ls ra (.error msg)).1.nextId ∧
    (redeemSolutions true
        { success := false, message := some "Invalid solution", token := "", expires := 0 }).2 =
      .error "Invalid solution" ∧
    (settleSolve st tokenKey ls ra (.error "Invalid solution")).2.errors =
      ["Invalid solution"] := by
  refine ⟨rfl, rfl, rfl, lookupSolving_delete st tokenKey, ?_, rfl, rfl⟩
  show (solveOneAtATime (deleteSolving st tokenKey) tokenKey).2 =
    (deleteSolving st tokenKey).nextId
  unfold solveOneAtATime
  rw [lookupSolving_delete]

/-- C9 counterexample: when the worker's solve path throws (here with message
"boom"), the worker posts `{found: false, error: "boom"}` on the *message*
channel; the dispatcher's message handler ignores it (`if (!data.found) return`),
leaving the unit pending — it is not failed with "Error in worker: boom". -/
theorem c9_counterexample :
    (workerOnMessage (.error "boom")).found = false ∧
    stepUnit ⟨.pending, true⟩ (.message (workerOnMessage (.error "boom"))) =
      ⟨.pending, true⟩ ∧
    (stepUnit ⟨.pending, true⟩ (.message (workerOnMessage (.error "boom")))).state ≠
      UnitState.rejected "Error in worker: boom" := by
  refine ⟨rfl, by decide, by decide⟩

/-- C9 amended: the dispatcher fails a unit with
`"Error in worker: <description>"` exactly when the *dispatcher-side*
`worker.onerror` event fires; a fault the worker catches in its solve path
(or receives on its own error channel) is instead posted back as a
`found: false` message with the error description, which the dispatcher's
message handler ignores, leaving the unit pending. -/
theorem c9_amended (err : JsErr) (armed : Bool) (e : String) :
    stepUnit ⟨.pending, armed⟩ (.errorEvent err) =
      ⟨.rejected ("Error in worker: " ++ errDescription err), false⟩ ∧
    workerOnMessage (.error e) = ⟨false, none, some e⟩ ∧
    workerOnError e = ⟨false, none, some e⟩ ∧
    stepUnit ⟨.pending, armed⟩ (.message (workerOnMessage (.error e))) =
      ⟨.pending, armed⟩ := by
  refine ⟨rfl, rfl, rfl, ?_⟩
  simp [stepUnit, workerOnMessage]

/-- C10: a worker reply with `found: false` (how the worker reports a caught
solver error) makes the dispatcher's message handler return without resolving
or rejecting the unit — any sequence of such messages leaves it pending with
the timeout still armed — so the unit settles only when the 30-second
(`WORKER_TIMEOUT_IN_MS = 30000`) timeout fires and rejects it with
"Worker timeout". -/
theorem c10_found_false_ignored (m : WorkerMsg) (armed : Bool) (ms : List WorkerMsg)
    (hm : m.found = false) (hms : ∀ x ∈ ms, x.found = false) :
    stepUnit ⟨.pending, armed⟩ (.message m) = ⟨.pending, armed⟩ ∧
    List.foldl stepUnit ⟨.pending, true⟩ (ms.map UnitEvent.message) = ⟨.pending, true⟩ ∧
    stepUnit ⟨.pending, true⟩ .timeoutFire = ⟨.rejected "Worker timeout", false⟩ ∧
    WORKER_TIMEOUT_IN_MS = 30000 := by
  have hstep : ∀ (x : WorkerMsg) (b : Bool), x.found = false →
      stepUnit ⟨.pending, b⟩ (.message x) = ⟨.pending, b⟩ := by
    intro x b hx
    simp [stepUnit, hx]
  have hfold : ∀ (l : List WorkerMsg), (∀ x ∈ l, x.found = false) →
      List.foldl stepUnit ⟨.pending, true⟩ (l.map UnitEvent.message) = ⟨.pending, true⟩ := by
    intro l
    induction l with
    | nil => intro _; rfl
    | cons x t ih =>
      intro hl
      rw [List.map_cons, List.foldl_cons, hstep x true (hl x (by simp))]
      exact ih fun y hy => hl y (by simp [hy])
  exact ⟨hstep m armed hm, hfold ms hms, rfl, rfl⟩

/-- C10 witness: a concrete `found: false` message and a one-message event
sequence, followed by the timeout firing. -/
theorem c10_witness :
    stepUnit ⟨.pending, false⟩ (.message ⟨false, none, some "err"⟩) = ⟨.pending, false⟩ ∧
    List.foldl stepUnit ⟨.pending, true⟩
      ([⟨false, none, some "a"⟩].map UnitEvent.message) = ⟨.pending, true⟩ ∧
    stepUnit ⟨.pending, true⟩ .timeoutFire = ⟨.rejected "Worker timeout", false⟩ ∧
    WORKER_TIMEOUT_IN_MS = 30000 :=
  c10_found_false_ignored ⟨false, none, some "err"⟩ false [⟨false, none, some "a"⟩]
    (by decide) (by decide)

end UseCap
